import Mathlib

/-!
Shallow embedding of the miami-room-availability library (src/lib.rs) and a
verification of its specification claims.  Rust strings are modelled as lists
of characters, the u8/u16/u32 machine integers as `Nat` with explicit
wrap-around (`% 2^w`) written exactly where the source can overflow, fallible
constructors and panicking operations as `PResult`, and the
`HashMap<Date, Vec<TimeRange>>` as an association list.
-/

namespace MiamiRoom

/-- Outcome of a Rust computation that can panic: a panic (its message is
elided) or a normal result.  This models the panics in `Time::new`,
`Date::new`, `str::split_at`, `Option::unwrap` and the explicit
precondition check of `find_available_ranges`. -/
inductive PResult (α : Type) where
  | panicked : PResult α
  | ok : α → PResult α
  deriving DecidableEq

/-- True exactly on the panicking outcome. -/
def PResult.isPanic {α : Type} : PResult α → Bool
  | .panicked => true
  | .ok _ => false

/-- Rust struct `Time { hour: u8, minute: u8 }` (src/lib.rs:17-21); the u8
fields are modelled as `Nat`, with wrap-around written explicitly in the one
operation (`Time::add`) whose intermediate sums can exceed the field range. -/
structure Time where
  hour : Nat
  minute : Nat
  deriving DecidableEq

/-- Rust struct `Date { year: i32, month: u8, day: u8 }` (src/lib.rs:23-28). -/
structure Date where
  year : Int
  month : Nat
  day : Nat
  deriving DecidableEq

/-- Rust enum `ParseError` (src/lib.rs:30-34). -/
inductive ParseError where
  | NameDoesNotMatch
  | NoNumber
  | NoCapacity
  deriving DecidableEq

/-- Rust struct `TimeRange { start: Time, end: Time }` (src/lib.rs:43-47); the
field `end` is renamed `endTime` because `end` is a Lean keyword. -/
structure TimeRange where
  start : Time
  endTime : Time
  deriving DecidableEq

/-- Rust struct `KingStudyRoom` (src/lib.rs:36-41); the availability hash map
becomes an association list (Rust's `HashMap` iteration order is unspecified;
no claim below depends on the relative order of distinct dates). -/
structure KingStudyRoom where
  room_number : Nat
  person_capacity : Nat
  available : List (Date × List TimeRange)
  deriving DecidableEq

/-- Rust `Time::new` (src/lib.rs:224-234): panics when `hour > 23` or
`minute > 59`. -/
def Time.new (hour minute : Nat) : PResult Time :=
  if hour > 23 then .panicked
  else if minute > 59 then .panicked
  else .ok ⟨hour, minute⟩

/-- Rust `Time::as_minutes` (src/lib.rs:250-252): `(hour as u32) * 60 + minute
as u32`; for u8 fields this cannot overflow u32, so plain `Nat` arithmetic is
exact. -/
def Time.as_minutes (t : Time) : Nat :=
  t.hour * 60 + t.minute

/-- Rust `Time::add` (src/lib.rs:236-248), with the source's exact sequence of
u8 operations and explicit `% 256` wrap at each step. -/
def Time.add (t other : Time) : Time :=
  let m1 := (t.minute + other.minute) % 256
  let h1 := (t.hour + m1 / 60) % 256
  let m2 := m1 % 60
  let h2 := (h1 + other.hour) % 256
  ⟨h2, m2⟩

/-- Rust `Date::new` (src/lib.rs:210-221): panics when the month is outside
[1, 12] or the day is outside [1, 31]. -/
def Date.new (year : Int) (month day : Nat) : PResult Date :=
  if 1 > month ∨ month > 12 then .panicked
  else if 1 > day ∨ day > 31 then .panicked
  else .ok ⟨year, month, day⟩

/-- Rust `TimeRange::new` (src/lib.rs:274-276): plain construction, no
validation. -/
def TimeRange.new (start endTime : Time) : TimeRange :=
  ⟨start, endTime⟩

/-- Rust `TimeRange::contains_time` (src/lib.rs:313-316). -/
def TimeRange.contains_time (r : TimeRange) (time : Time) : Bool :=
  decide (r.start.as_minutes ≤ time.as_minutes) &&
    decide (time.as_minutes < r.endTime.as_minutes)

/-- Rust `TimeRange::length_minutes` (src/lib.rs:318-320): u32 subtraction,
written with the explicit two-complement wrap `(a + 2^32 - b) % 2^32`; for
every range this library builds, `endTime.as_minutes ≥ start.as_minutes`, and
there the wrap equals the exact difference. -/
def TimeRange.length_minutes (r : TimeRange) : Nat :=
  (r.endTime.as_minutes + 4294967296 - r.start.as_minutes) % 4294967296

/-- Numeric value of a digit string (most significant digit first). -/
def digitsVal (s : List Char) : Nat :=
  s.foldl (fun a c => a * 10 + (c.toNat - 48)) 0

/-- Rust `str::parse` for an unsigned integer type of maximum value `bound`
(255 for u8, 65535 for u16): an optional leading plus sign, then one or more
ASCII digits, rejecting values that overflow the type. -/
def rustParseNat (bound : Nat) (s : List Char) : Option Nat :=
  let body := match s with
    | '+' :: rest => rest
    | _ => s
  if body ≠ [] ∧ body.all Char.isDigit then
    if digitsVal body ≤ bound then some (digitsVal body) else none
  else none

/-- Rust `str::parse::<i32>`: an optional sign, then one or more ASCII digits,
with the two-complement i32 bounds. -/
def rustParseInt (s : List Char) : Option Int :=
  match s with
  | '-' :: rest =>
    if rest ≠ [] ∧ rest.all Char.isDigit ∧ digitsVal rest ≤ 2147483648 then
      some (-(digitsVal rest : Int))
    else none
  | _ => (rustParseNat 2147483647 s).map (fun n => (n : Int))

/-- Rust `str::split_at` on a character-list model of strings: panics when the
index exceeds the length. -/
def splitAtP (s : List Char) (n : Nat) : PResult (List Char × List Char) :=
  if n ≤ s.length then .ok (s.take n, s.drop n) else .panicked

/-- Rust `TimeRange::parse_stamp` (src/lib.rs:278-311): split the stamp at the
fixed widths 4, 2, 2, 2, 2 (the remainder is ignored), parse the five fields
in order, returning `ok none` at the first field that fails numeric parsing,
then build the pair with `Date::new` and `Time::new` — which panic on values
that fail range validation. -/
def TimeRange.parse_stamp (stamp : List Char) : PResult (Option (Date × Time)) :=
  match splitAtP stamp 4 with
  | .panicked => .panicked
  | .ok (year_s, t1) =>
    match splitAtP t1 2 with
    | .panicked => .panicked
    | .ok (month_s, t2) =>
      match splitAtP t2 2 with
      | .panicked => .panicked
      | .ok (day_s, t3) =>
        match splitAtP t3 2 with
        | .panicked => .panicked
        | .ok (hour_s, t4) =>
          match splitAtP t4 2 with
          | .panicked => .panicked
          | .ok (minute_s, _) =>
            match rustParseInt year_s with
            | none => .ok none
            | some year =>
              match rustParseNat 255 month_s with
              | none => .ok none
              | some month =>
                match rustParseNat 255 day_s with
                | none => .ok none
                | some day =>
                  match rustParseNat 255 hour_s with
                  | none => .ok none
                  | some hour =>
                    match rustParseNat 255 minute_s with
                    | none => .ok none
                    | some minute =>
                      match Date.new year month day with
                      | .panicked => .panicked
                      | .ok d =>
                        match Time.new hour minute with
                        | .panicked => .panicked
                        | .ok t => .ok (some (d, t))

/-- The order on `TimeRange` induced by the derived Rust `Ord`
(src/lib.rs:323-333): `TimeRange::cmp` compares the `start` times, and
`Time::cmp` compares minutes-since-midnight. -/
def rangeLE (a b : TimeRange) : Prop :=
  a.start.as_minutes ≤ b.start.as_minutes

instance : DecidableRel rangeLE :=
  fun a b => Nat.decLe a.start.as_minutes b.start.as_minutes

instance : IsTotal TimeRange rangeLE :=
  ⟨fun a b => Nat.le_total a.start.as_minutes b.start.as_minutes⟩

instance : IsTrans TimeRange rangeLE :=
  ⟨fun _ _ _ => Nat.le_trans⟩

/-- Rust `Vec::sort` on a slot list, modelled as insertion sort over
`rangeLE` (both are stable and sort by the same order). -/
def sortRanges (l : List TimeRange) : List TimeRange :=
  List.insertionSort rangeLE l

/-- The map update done by `add_availability_from_node` (src/lib.rs:139-148):
push the new range onto the date's vector and re-sort it; a fresh date key
gets a freshly sorted one-element vector (appended at the end of the
association list, the hash map having no observable order). -/
def updateAssoc (m : List (Date × List TimeRange)) (day : Date)
    (range : TimeRange) : List (Date × List TimeRange) :=
  match m with
  | [] => [(day, sortRanges [range])]
  | (d, l) :: rest =>
    if d = day then (d, sortRanges (l ++ [range])) :: rest
    else (d, l) :: updateAssoc rest day range

/-- Rust `KingStudyRoom::add_availability_from_node` (src/lib.rs:125-149): the
node's `ref` attribute (the raw stamp) is the `Option (List Char)` argument; a
missing attribute or a stamp on which `parse_stamp` returns `None` leaves the
room unchanged, otherwise the 30-minute range `[start, start + 0:30)` is
inserted into the date's sorted vector. -/
def KingStudyRoom.add_availability_from_node (room : KingStudyRoom)
    (refAttr : Option (List Char)) : PResult KingStudyRoom :=
  match refAttr with
  | none => .ok room
  | some stamp =>
    match TimeRange.parse_stamp stamp with
    | .panicked => .panicked
    | .ok none => .ok room
    | .ok (some (day, start)) =>
      match Time.new 0 30 with
      | .panicked => .panicked
      | .ok t30 =>
        let range := TimeRange.new start (start.add t30)
        .ok { room with available := updateAssoc room.available day range }

/-- Iterated `add_availability_from_node`, as in the slot loop of
`Schedule::new` (src/lib.rs:68-70). -/
def KingStudyRoom.addSlots (room : KingStudyRoom) :
    List (Option (List Char)) → PResult KingStudyRoom
  | [] => .ok room
  | a :: rest =>
    match KingStudyRoom.add_availability_from_node room a with
    | .panicked => .panicked
    | .ok r2 => KingStudyRoom.addSlots r2 rest

/-- Loop state of `KingStudyRoom::find_available_ranges` (src/lib.rs:167-171):
the accumulated block length, the running `range`, the `last` interval seen,
and the output vector `available`. -/
structure ScanState where
  length_so_far : Nat
  range : TimeRange
  last : TimeRange
  available : List TimeRange
  deriving DecidableEq

/-- The value `TimeRange::new(Time::new(0, 0), Time::new(0, 0))` used to reset
the loop state (`Time::new(0, 0)` never panics). -/
def zeroRange : TimeRange :=
  ⟨⟨0, 0⟩, ⟨0, 0⟩⟩

/-- One iteration of the interval loop of `find_available_ranges`
(src/lib.rs:178-198), including the unconditional `last = interval` at the end
of the loop body; the u32 accumulation carries an explicit wrap. -/
def scanStep (minutes : Nat) (s : ScanState) (interval : TimeRange) : ScanState :=
  if s.length_so_far = 0 then
    { s with range := ⟨interval.start, interval.endTime⟩,
             length_so_far := interval.length_minutes,
             last := interval }
  else if interval.start = s.last.endTime then
    { s with range := ⟨s.range.start, interval.endTime⟩,
             length_so_far := (s.length_so_far + interval.length_minutes) % 4294967296,
             last := interval }
  else
    { length_so_far := 0,
      range := zeroRange,
      last := interval,
      available := if s.length_so_far ≥ minutes then s.available ++ [s.range]
                   else s.available }

/-- The per-date body of `find_available_ranges` (src/lib.rs:174-202): reset
the block state (keeping the output accumulated over earlier dates), run the
interval loop, then the trailing `if length_so_far != 0` push. -/
def scanDate (minutes : Nat) (acc : List TimeRange)
    (intervals : List TimeRange) : List TimeRange :=
  let s := intervals.foldl (scanStep minutes) ⟨0, zeroRange, zeroRange, acc⟩
  if s.length_so_far ≠ 0 then s.available ++ [s.range] else s.available

/-- Rust `KingStudyRoom::find_available_ranges` (src/lib.rs:163-206): panics
when `minutes > 120`, otherwise folds the per-date scan over the value lists
of the availability map. -/
def KingStudyRoom.find_available_ranges (room : KingStudyRoom)
    (minutes : Nat) : PResult (List TimeRange) :=
  if 120 < minutes then .panicked
  else .ok ((room.available.map Prod.snd).foldl (scanDate minutes) [])

/-- Strips the literal `pre` from the front of `s`. -/
def stripPre (pre s : List Char) : Option (List Char) :=
  match pre, s with
  | [], rest => some rest
  | _ :: _, [] => none
  | p :: ps, c :: cs => if p = c then stripPre ps cs else none

/-- Match of the room-name regex `King Study Room (\d+) - (\d+) Person`
(src/lib.rs:14) anchored at the beginning of `s`, returning the two captured
digit groups.  In the pattern each `\d+` is followed by a non-digit literal,
so the greedy capture is exactly the maximal digit run (`\d` modelled as the
ASCII digits, which is all the concrete inputs below use). -/
def matchRoomAt (s : List Char) : Option (List Char × List Char) :=
  match stripPre ("King Study Room ".toList) s with
  | none => none
  | some s1 =>
    let number := s1.takeWhile Char.isDigit
    let s2 := s1.dropWhile Char.isDigit
    if number = [] then none
    else
      match stripPre (" - ".toList) s2 with
      | none => none
      | some s3 =>
        let capacity := s3.takeWhile Char.isDigit
        let s4 := s3.dropWhile Char.isDigit
        if capacity = [] then none
        else
          match stripPre (" Person".toList) s4 with
          | none => none
          | some _ => some (number, capacity)

/-- Leftmost match of the room-name regex, as `Regex::captures` finds it. -/
def roomCaptures : List Char → Option (List Char × List Char)
  | [] => matchRoomAt []
  | c :: rest =>
    match matchRoomAt (c :: rest) with
    | some caps => some caps
    | none => roomCaptures rest

/-- Rust `KingStudyRoom::from_str` (src/lib.rs:102-123): a failed regex match
is the recoverable `ParseError::NameDoesNotMatch`; on a successful match both
capture groups are always present (so `NoNumber` and `NoCapacity` are dead
code), and the captured digit strings are fed to `parse::<u16>().unwrap()` and
`parse::<u8>().unwrap()`, which panic when the value overflows the type. -/
def KingStudyRoom.from_str (s : List Char) : PResult (Except ParseError KingStudyRoom) :=
  match roomCaptures s with
  | none => .ok (.error ParseError.NameDoesNotMatch)
  | some (number, capacity) =>
    match rustParseNat 65535 number with
    | none => .panicked
    | some n =>
      match rustParseNat 255 capacity with
      | none => .panicked
      | some c => .ok (.ok ⟨n, c, []⟩)

/-- Invariant claimed by the spec: every slot list stored in the room's map is
sorted ascending by start time. -/
def RoomSorted (room : KingStudyRoom) : Prop :=
  ∀ p ∈ room.available, List.Sorted rangeLE p.2

/-! ## Helper lemmas -/

/-- The sort applied after each push produces a list sorted by start time. -/
theorem sorted_sortRanges (l : List TimeRange) :
    List.Sorted rangeLE (sortRanges l) :=
  List.sorted_insertionSort rangeLE l

/-- The push-then-sort map update keeps every stored slot list sorted. -/
theorem sorted_updateAssoc (m : List (Date × List TimeRange)) (day : Date)
    (range : TimeRange)
    (h : ∀ p ∈ m, List.Sorted rangeLE p.2) :
    ∀ p ∈ updateAssoc m day range, List.Sorted rangeLE p.2 := by
  induction m with
  | nil =>
    intro p hp
    simp only [updateAssoc, List.mem_singleton] at hp
    subst hp
    exact sorted_sortRanges [range]
  | cons hd tl ih =>
    obtain ⟨d, l⟩ := hd
    intro p hp
    simp only [updateAssoc] at hp
    split at hp
    · rcases List.mem_cons.mp hp with h1 | h2
      · subst h1
        exact sorted_sortRanges (l ++ [range])
      · exact h p (List.mem_cons_of_mem _ h2)
    · rcases List.mem_cons.mp hp with h1 | h2
      · subst h1
        exact h (d, l) (List.mem_cons_self _ _)
      · exact ih (fun q hq => h q (List.mem_cons_of_mem _ hq)) p h2

/-- A single successful `add_availability_from_node` call preserves the
sortedness of every stored slot list. -/
theorem sorted_add_node {room room2 : KingStudyRoom} {a : Option (List Char)}
    (hs : RoomSorted room)
    (h : room.add_availability_from_node a = .ok room2) :
    RoomSorted room2 := by
  cases a with
  | none =>
    simp only [KingStudyRoom.add_availability_from_node, PResult.ok.injEq] at h
    exact h ▸ hs
  | some stamp =>
    simp only [KingStudyRoom.add_availability_from_node] at h
    cases hp : TimeRange.parse_stamp stamp with
    | panicked =>
      rw [hp] at h
      cases h
    | ok o =>
      rw [hp] at h
      cases o with
      | none =>
        simp only [PResult.ok.injEq] at h
        exact h ▸ hs
      | some ds =>
        obtain ⟨day, start⟩ := ds
        simp only [Time.new, PResult.ok.injEq] at h
        norm_num at h
        subst h
        intro p hp2
        exact sorted_updateAssoc room.available day _ hs p hp2

/-- True bound needed by `parse_stamp`: the five fixed-width splits succeed. -/
theorem splitAtP_ok (s : List Char) (n : Nat) (h : n ≤ s.length) :
    splitAtP s n = .ok (s.take n, s.drop n) := by
  simp [splitAtP, h]

/-- Characterization of the panicking branch of `Date::new`. -/
theorem date_new_panicked (y : Int) (mo dy : Nat)
    (h : mo < 1 ∨ 12 < mo ∨ dy < 1 ∨ 31 < dy) :
    Date.new y mo dy = .panicked := by
  unfold Date.new
  split
  · rfl
  · split
    · rfl
    · exfalso
      omega

/-- Characterization of the normal branch of `Date::new`. -/
theorem date_new_ok (y : Int) (mo dy : Nat)
    (h1 : 1 ≤ mo) (h2 : mo ≤ 12) (h3 : 1 ≤ dy) (h4 : dy ≤ 31) :
    Date.new y mo dy = .ok ⟨y, mo, dy⟩ := by
  unfold Date.new
  rw [if_neg (by omega), if_neg (by omega)]

/-- Characterization of the panicking branch of `Time::new`. -/
theorem time_new_panicked (hour minute : Nat)
    (h : 23 < hour ∨ 59 < minute) :
    Time.new hour minute = .panicked := by
  unfold Time.new
  split
  · rfl
  · split
    · rfl
    · exfalso
      omega

/-- Characterization of the normal branch of `Time::new`. -/
theorem time_new_ok (hour minute : Nat) (h1 : hour ≤ 23) (h2 : minute ≤ 59) :
    Time.new hour minute = .ok ⟨hour, minute⟩ := by
  unfold Time.new
  rw [if_neg (by omega), if_neg (by omega)]

/-! ## Claims -/

/-- C1: for a room whose availability map contains exactly one date whose
sorted slot list is [08:00-08:30), [08:30-09:00), [09:30-10:00),
`find_available_ranges(60)` returns exactly the single range [08:00, 09:00):
the two adjacent slots merge into one block and the isolated 30-minute slot is
dropped. -/
theorem claim1_merge_example (number capacity : Nat) (day : Date) :
    KingStudyRoom.find_available_ranges
        ⟨number, capacity,
          [(day, [⟨⟨8, 0⟩, ⟨8, 30⟩⟩, ⟨⟨8, 30⟩, ⟨9, 0⟩⟩, ⟨⟨9, 30⟩, ⟨10, 0⟩⟩])]⟩ 60
      = .ok [⟨⟨8, 0⟩, ⟨9, 0⟩⟩] := by
  rfl

/-- C2 counterexample: on the single-date slot list
[08:00-08:30), [09:00-09:30), [09:30-10:00) with `min_minutes = 30`, the claim
says the gap-causing interval [09:00-09:30) becomes the start of the next
candidate block, which would make the second emitted block [09:00, 10:00);
the code instead drops that interval and opens the next block only at
[09:30-10:00), so the result is [08:00-08:30), [09:30-10:00) and no emitted
block covers 09:00. -/
theorem claim2_cex :
    KingStudyRoom.find_available_ranges
        ⟨1, 1, [(⟨2016, 5, 8⟩,
          [⟨⟨8, 0⟩, ⟨8, 30⟩⟩, ⟨⟨9, 0⟩, ⟨9, 30⟩⟩, ⟨⟨9, 30⟩, ⟨10, 0⟩⟩])]⟩ 30
      = .ok [⟨⟨8, 0⟩, ⟨8, 30⟩⟩, ⟨⟨9, 30⟩, ⟨10, 0⟩⟩] ∧
    (⟨⟨9, 0⟩, ⟨10, 0⟩⟩ : TimeRange) ∉
      [(⟨⟨8, 0⟩, ⟨8, 30⟩⟩ : TimeRange), ⟨⟨9, 30⟩, ⟨10, 0⟩⟩] := by
  decide

/-- C2 amended: when an interval is reached whose start differs from the
previous interval's end while a block is open, the just-closed block is
emitted iff its accumulated length ≥ `min_minutes`, and the state is then
fully reset — `length_so_far` becomes 0, `range` becomes the zero range, and
only `last` is set to the current interval.  No new block is opened at the
gap-causing interval: it is dropped from consideration, and the next candidate
block opens at the following interval (if any). -/
theorem claim2_gap_amended (minutes : Nat) (_hmin : minutes ≤ 120)
    (s : ScanState) (interval : TimeRange)
    (hopen : s.length_so_far ≠ 0)
    (hgap : interval.start ≠ s.last.endTime) :
    scanStep minutes s interval =
      ⟨0, zeroRange, interval,
        if s.length_so_far ≥ minutes then s.available ++ [s.range]
        else s.available⟩ := by
  unfold scanStep
  simp [hopen, hgap]

/-- C2 amended, witness: a concrete gap step with an open 30-minute block and
threshold 30 emits the block and drops the gap-causing interval. -/
theorem claim2_gap_amended_witness :
    scanStep 30
        ⟨30, ⟨⟨8, 0⟩, ⟨8, 30⟩⟩, ⟨⟨8, 0⟩, ⟨8, 30⟩⟩, []⟩ ⟨⟨9, 0⟩, ⟨9, 30⟩⟩ =
      ⟨0, zeroRange, ⟨⟨9, 0⟩, ⟨9, 30⟩⟩, [⟨⟨8, 0⟩, ⟨8, 30⟩⟩]⟩ :=
  (claim2_gap_amended 30 (by decide) _ _ (by decide) (by decide)).trans (by decide)

/-- C3: after scanning a date's slot list, if a block is still open (its
accumulated length is non-zero) it is appended to the result unconditionally —
no comparison against `min_minutes` guards this final push. -/
theorem claim3_trailing_block (minutes : Nat) (_hmin : minutes ≤ 120)
    (acc intervals : List TimeRange)
    (hopen : (intervals.foldl (scanStep minutes)
        ⟨0, zeroRange, zeroRange, acc⟩).length_so_far ≠ 0) :
    scanDate minutes acc intervals =
      (intervals.foldl (scanStep minutes)
          ⟨0, zeroRange, zeroRange, acc⟩).available ++
        [(intervals.foldl (scanStep minutes)
            ⟨0, zeroRange, zeroRange, acc⟩).range] := by
  unfold scanDate
  simp [hopen]

/-- C3 witness: a single 30-minute slot is emitted even against the threshold
120, exercising the trailing-block bypass of the length filter. -/
theorem claim3_trailing_block_witness :
    scanDate 120 [] [⟨⟨8, 0⟩, ⟨8, 30⟩⟩] = [⟨⟨8, 0⟩, ⟨8, 30⟩⟩] :=
  (claim3_trailing_block 120 (by decide) [] [⟨⟨8, 0⟩, ⟨8, 30⟩⟩]
    (by decide)).trans (by decide)

/-- C4 counterexample: the all-numeric stamp "201699011015" decodes to year
2016, month 99, day 01, hour 10, minute 15; month 99 fails `Date::new`'s
range validation, and `parse_stamp` fails fatally (panics) there instead of
returning no value as the claim states. -/
theorem claim4_cex :
    (TimeRange.parse_stamp ("201699011015".toList)).isPanic = true := by
  decide

/-- C4 amended: for input strings of at least 12 characters (shorter inputs
already fail fatally in `split_at`), `parse_stamp` returns no value whenever
one of the five decoded fields is non-numeric, and such a stamp is never
inserted as a slot (`add_availability_from_node` leaves the room unchanged);
but when all five fields are numeric and a decoded value fails Date or Time
range validation, the call fails fatally (panics inside `Date::new` or
`Time::new`) rather than returning no value. -/
theorem claim4_amended (stamp : List Char) (hlen : 12 ≤ stamp.length) :
    ((rustParseInt (stamp.take 4) = none ∨
      rustParseNat 255 ((stamp.drop 4).take 2) = none ∨
      rustParseNat 255 ((stamp.drop 6).take 2) = none ∨
      rustParseNat 255 ((stamp.drop 8).take 2) = none ∨
      rustParseNat 255 ((stamp.drop 10).take 2) = none) →
      TimeRange.parse_stamp stamp = .ok none) ∧
    (∀ (y : Int) (mo dy hr mi : Nat),
      rustParseInt (stamp.take 4) = some y →
      rustParseNat 255 ((stamp.drop 4).take 2) = some mo →
      rustParseNat 255 ((stamp.drop 6).take 2) = some dy →
      rustParseNat 255 ((stamp.drop 8).take 2) = some hr →
      rustParseNat 255 ((stamp.drop 10).take 2) = some mi →
      ¬(1 ≤ mo ∧ mo ≤ 12 ∧ 1 ≤ dy ∧ dy ≤ 31 ∧ hr ≤ 23 ∧ mi ≤ 59) →
      (TimeRange.parse_stamp stamp).isPanic = true) ∧
    (∀ (room : KingStudyRoom) (stamp2 : List Char),
      TimeRange.parse_stamp stamp2 = .ok none →
      room.add_availability_from_node (some stamp2) = .ok room) := by
  have l4 : splitAtP stamp 4 = .ok (stamp.take 4, stamp.drop 4) :=
    splitAtP_ok _ _ (by omega)
  have l5 : splitAtP (stamp.drop 4) 2 =
      .ok ((stamp.drop 4).take 2, stamp.drop 6) := by
    rw [splitAtP_ok _ _ (by simp [List.length_drop]; omega)]
    simp [List.drop_drop]
  have l6 : splitAtP (stamp.drop 6) 2 =
      .ok ((stamp.drop 6).take 2, stamp.drop 8) := by
    rw [splitAtP_ok _ _ (by simp [List.length_drop]; omega)]
    simp [List.drop_drop]
  have l7 : splitAtP (stamp.drop 8) 2 =
      .ok ((stamp.drop 8).take 2, stamp.drop 10) := by
    rw [splitAtP_ok _ _ (by simp [List.length_drop]; omega)]
    simp [List.drop_drop]
  have l8 : splitAtP (stamp.drop 10) 2 =
      .ok ((stamp.drop 10).take 2, stamp.drop 12) := by
    rw [splitAtP_ok _ _ (by simp [List.length_drop]; omega)]
    simp [List.drop_drop]
  refine ⟨?_, ?_, ?_⟩
  · intro hbad
    simp only [TimeRange.parse_stamp, l4, l5, l6, l7, l8]
    rcases hbad with hb | hb | hb | hb | hb
    · simp [hb]
    · cases hy : rustParseInt (stamp.take 4) <;> simp [hy, hb]
    · cases hy : rustParseInt (stamp.take 4) <;>
        cases hmo : rustParseNat 255 ((stamp.drop 4).take 2) <;>
          simp [hy, hmo, hb]
    · cases hy : rustParseInt (stamp.take 4) <;>
        cases hmo : rustParseNat 255 ((stamp.drop 4).take 2) <;>
          cases hdy : rustParseNat 255 ((stamp.drop 6).take 2) <;>
            simp [hy, hmo, hdy, hb]
    · cases hy : rustParseInt (stamp.take 4) <;>
        cases hmo : rustParseNat 255 ((stamp.drop 4).take 2) <;>
          cases hdy : rustParseNat 255 ((stamp.drop 6).take 2) <;>
            cases hhr : rustParseNat 255 ((stamp.drop 8).take 2) <;>
              simp [hy, hmo, hdy, hhr, hb]
  · intro y mo dy hr mi hy hmo hdy hhr hmi hval
    simp only [TimeRange.parse_stamp, l4, l5, l6, l7, l8, hy, hmo, hdy, hhr, hmi]
    by_cases hd : 1 ≤ mo ∧ mo ≤ 12 ∧ 1 ≤ dy ∧ dy ≤ 31
    · have hdok : Date.new y mo dy = .ok ⟨y, mo, dy⟩ :=
        date_new_ok y mo dy hd.1 hd.2.1 hd.2.2.1 hd.2.2.2
      have ht : Time.new hr mi = .panicked :=
        time_new_panicked hr mi (by omega)
      simp [hdok, ht, PResult.isPanic]
    · have hdp : Date.new y mo dy = .panicked :=
        date_new_panicked y mo dy (by omega)
      simp [hdp, PResult.isPanic]
  · intro room stamp2 hps
    simp [KingStudyRoom.add_availability_from_node, hps]

/-- C4 amended, witness: the spec's own example "20160599" followed by the
non-numeric characters "abcd" has a non-numeric hour field ("ab"), so
`parse_stamp` returns no value. -/
theorem claim4_amended_witness :
    TimeRange.parse_stamp ("20160599abcd".toList) = .ok none :=
  (claim4_amended ("20160599abcd".toList) (by decide)).1
    (Or.inr (Or.inr (Or.inr (Or.inl (by decide)))))

/-- C5: `find_available_ranges(minutes)` fails fatally exactly when
`minutes > 120`; for every `minutes ≤ 120` the call returns normally, on every
room. -/
theorem claim5_precondition (room : KingStudyRoom) (minutes : Nat) :
    ((room.find_available_ranges minutes).isPanic = true ↔ 120 < minutes) ∧
    (minutes ≤ 120 → ∃ rs, room.find_available_ranges minutes = .ok rs) := by
  by_cases h : 120 < minutes <;>
    simp [KingStudyRoom.find_available_ranges, h, PResult.isPanic]

/-- C5 witness: threshold 121 panics, threshold 120 returns normally. -/
theorem claim5_precondition_witness :
    ((KingStudyRoom.find_available_ranges ⟨204, 4, []⟩ 121).isPanic = true) ∧
    (∃ rs, KingStudyRoom.find_available_ranges ⟨204, 4, []⟩ 120 = .ok rs) :=
  ⟨(claim5_precondition ⟨204, 4, []⟩ 121).1.mpr (by decide),
   (claim5_precondition ⟨204, 4, []⟩ 120).2 (by decide)⟩

/-- C6: successful `add_availability_from_node` calls preserve the invariant
that every date's stored slot list is sorted ascending by start time; hence
after any number of such calls on a room whose lists are sorted (in
particular a freshly parsed room, whose map is empty), every stored list is
sorted. -/
theorem claim6_sorted_after_adds (room room2 : KingStudyRoom)
    (attrs : List (Option (List Char)))
    (hs : RoomSorted room)
    (h : room.addSlots attrs = .ok room2) :
    RoomSorted room2 := by
  induction attrs generalizing room with
  | nil =>
    simp only [KingStudyRoom.addSlots, PResult.ok.injEq] at h
    exact h ▸ hs
  | cons a rest ih =>
    simp only [KingStudyRoom.addSlots] at h
    cases ha : room.add_availability_from_node a with
    | panicked =>
      rw [ha] at h
      cases h
    | ok r2 =>
      rw [ha] at h
      exact ih r2 (sorted_add_node hs ha) h

/-- C6 witness: two slots added out of chronological order to an empty room
end up stored sorted ascending by start time. -/
theorem claim6_sorted_after_adds_witness :
    RoomSorted ⟨204, 4, [(⟨2016, 5, 8⟩,
      [⟨⟨8, 30⟩, ⟨9, 0⟩⟩, ⟨⟨9, 0⟩, ⟨9, 30⟩⟩])]⟩ :=
  claim6_sorted_after_adds ⟨204, 4, []⟩ _
    [some ("201605080900005".toList), some ("201605080830005".toList)]
    (by simp [RoomSorted]) (by decide)

/-- C7: for Times with fields in their valid ranges, `Time::add` carries the
minute overflow into the hour and applies no modulo to the resulting hour
(which may exceed 23). -/
theorem claim7_add (a b : Time) (ha1 : a.hour ≤ 23) (ha2 : a.minute ≤ 59)
    (hb1 : b.hour ≤ 23) (hb2 : b.minute ≤ 59) :
    a.add b = ⟨a.hour + (a.minute + b.minute) / 60 + b.hour,
      (a.minute + b.minute) % 60⟩ := by
  simp only [Time.add, Time.mk.injEq]
  constructor <;> omega

/-- C7 witness: the source's own unit test, {10,30}.add({2,50}) = {13,20}. -/
theorem claim7_add_witness : Time.add ⟨10, 30⟩ ⟨2, 50⟩ = ⟨13, 20⟩ :=
  (claim7_add ⟨10, 30⟩ ⟨2, 50⟩ (by decide) (by decide) (by decide)
    (by decide)).trans (by decide)

/-- C8: `contains_time` is the half-open containment test (start inclusive,
end exclusive), and in particular [08:00, 08:30) contains 08:00 but not
08:30. -/
theorem claim8_contains (r : TimeRange) (t : Time) :
    (r.contains_time t = true ↔
      (r.start.as_minutes ≤ t.as_minutes ∧
        t.as_minutes < r.endTime.as_minutes)) ∧
    (TimeRange.mk ⟨8, 0⟩ ⟨8, 30⟩).contains_time ⟨8, 0⟩ = true ∧
    (TimeRange.mk ⟨8, 0⟩ ⟨8, 30⟩).contains_time ⟨8, 30⟩ = false := by
  refine ⟨?_, by decide, by decide⟩
  simp [TimeRange.contains_time]

/-- C9: `Time::new` succeeds on every hour in [0, 23] and minute in [0, 59],
with `as_minutes` returning hour*60 + minute, and fails for any hour > 23 or
minute > 59. -/
theorem claim9_time_new (hour minute : Nat) :
    (hour ≤ 23 → minute ≤ 59 →
      Time.new hour minute = .ok ⟨hour, minute⟩ ∧
        (Time.mk hour minute).as_minutes = hour * 60 + minute) ∧
    (23 < hour ∨ 59 < minute → (Time.new hour minute).isPanic = true) := by
  constructor
  · intro h1 h2
    refine ⟨?_, rfl⟩
    simp only [Time.new]
    rw [if_neg (by omega), if_neg (by omega)]
  · intro hbad
    simp only [Time.new]
    by_cases hh : hour > 23
    · simp [hh, PResult.isPanic]
    · have hm : minute > 59 := by omega
      simp [hh, hm, PResult.isPanic]

/-- C9 witness: Time::new(10, 30) succeeds with 630 minutes since midnight;
Time::new(30, 0) fails. -/
theorem claim9_time_new_witness :
    (Time.new 10 30 = .ok ⟨10, 30⟩ ∧
      (Time.mk 10 30).as_minutes = 10 * 60 + 30) ∧
    (Time.new 30 0).isPanic = true :=
  ⟨(claim9_time_new 10 30).1 (by decide) (by decide),
   (claim9_time_new 30 0).2 (Or.inl (by decide))⟩

/-- C10: a label matching the room pattern whose room number overflows u16
(70000) makes `from_str` panic inside `parse::<u16>().unwrap()`, and one
whose capacity overflows u8 (400) panics inside `parse::<u8>().unwrap()` —
neither returns a `ParseError`; labels whose numbers fit parse normally, and
a label that misses the pattern gets the recoverable `NameDoesNotMatch`. -/
theorem claim10_label_overflow :
    (KingStudyRoom.from_str ("King Study Room 70000 - 4 Person".toList)).isPanic
        = true ∧
    (KingStudyRoom.from_str ("King Study Room 204 - 400 Person".toList)).isPanic
        = true ∧
    KingStudyRoom.from_str ("King Study Room 204 - 4 Person".toList)
        = .ok (.ok ⟨204, 4, []⟩) ∧
    KingStudyRoom.from_str ("Some Other Room".toList)
        = .ok (.error ParseError.NameDoesNotMatch) :=
  ⟨by decide, by decide, by rfl, by rfl⟩

end MiamiRoom
